import Mathlib

set_option maxRecDepth 100000

/-!
Verification development for the NL→SQL sales chatbot repository.

The Python sources (`sql_guard.py`, `llm_adapter.py`, `viz.py`,
`chatbot_app.py`) are shallowly embedded below.  Strings are modelled as
`List Char`; Python exceptions are modelled with `Except String`; the
regular expressions used by the guard (`\bTOKEN\b`, `\bLIMIT\s+\d+\b`,
`\bGROUP\s+BY\b`, `^\s*select\b`) are modelled by an explicit, executable
pattern matcher with word-boundary semantics.

Modelling conventions:
* Python `str.strip()` / `\s` are modelled over the six ASCII whitespace
  characters; `str.lower()` lowercases ASCII letters (the Japanese keyword
  strings used by the repository are unaffected by `lower()`).
* Python's Unicode-aware `\w` is approximated by: ASCII letters, ASCII
  digits, `_`, and every non-ASCII character.  All forbidden tokens are
  pure ASCII, so this only affects boundaries next to non-ASCII text.
* `re`'s greedy `\s+` / `\d+` need no backtracking in the guard's patterns
  (each quantifier is followed by a character it can never match), so the
  matcher below consumes maximal runs.
-/

namespace Guard

/-- The six ASCII characters matched by Python `\s` and stripped by `str.strip()`. -/
def isPySpace (c : Char) : Bool :=
  c = ' ' || c = '\t' || c = '\n' || c = '\r' || c = '\x0b' || c = '\x0c'

/-- ASCII digit, as matched by `\d` on ASCII input. -/
def isDigitB (c : Char) : Bool :=
  '0' ≤ c && c ≤ '9'

/-- ASCII letter. -/
def isAsciiAlphaB (c : Char) : Bool :=
  ('a' ≤ c && c ≤ 'z') || ('A' ≤ c && c ≤ 'Z')

/-- Word character for `\b` boundaries: ASCII alphanumerics, `_`, and all
non-ASCII characters (approximating Python's Unicode-aware `\w`). -/
def isWordChar (c : Char) : Bool :=
  isAsciiAlphaB c || isDigitB c || c = '_' || c.val ≥ 128

/-- ASCII lowercasing, as done by `str.lower()` / `re.IGNORECASE` on ASCII. -/
def lcChar (c : Char) : Char :=
  if 'A' ≤ c && c ≤ 'Z' then Char.ofNat (c.toNat + 32) else c

/-- Model of `str.lower()` on a whole string. -/
def lowerStr (s : List Char) : List Char :=
  s.map lcChar

/-- Strip trailing Python whitespace. -/
def dropTrailingSp (l : List Char) : List Char :=
  (l.reverse.dropWhile isPySpace).reverse

/-- Python `str.strip()`. -/
def pyStrip (l : List Char) : List Char :=
  dropTrailingSp (l.dropWhile isPySpace)

/-- Boolean "is this list a prefix of that list". -/
def isPrefixB : List Char → List Char → Bool
  | [], _ => true
  | _ :: _, [] => false
  | a :: as, b :: bs => a = b && isPrefixB as bs

/-- Python `str.startswith`. -/
def startsWithB (s pre : List Char) : Bool :=
  isPrefixB pre s

/-- Python `str.endswith`. -/
def endsWithB (s suf : List Char) : Bool :=
  isPrefixB suf.reverse s.reverse

/-- Python substring containment `needle in haystack`. -/
def isSubstr (needle : List Char) : List Char → Bool
  | [] => isPrefixB needle []
  | c :: rest => isPrefixB needle (c :: rest) || isSubstr needle rest

/-- Case-insensitive literal match; on success returns the rest of the input. -/
def matchCharsCI : List Char → List Char → Option (List Char)
  | [], s => some s
  | _ :: _, [] => none
  | a :: as, b :: bs => if lcChar a = lcChar b then matchCharsCI as bs else none

/-- One component of a guard regex: a literal word, `\s+`, or `\d+`. -/
inductive Pat where
  | lit (w : List Char)
  | sp1
  | dig1
deriving DecidableEq

/-- Match a sequence of pattern components at the head of the input.
`\s+` and `\d+` consume maximal runs (no backtracking is needed because in
every guard pattern the following component starts with a character the
quantifier cannot match). -/
def matchPat : List Pat → List Char → Option (List Char)
  | [], s => some s
  | .lit w :: ps, s => (matchCharsCI w s).bind (matchPat ps)
  | .sp1 :: ps, s =>
    match s with
    | [] => none
    | c :: r => if isPySpace c then matchPat ps (r.dropWhile isPySpace) else none
  | .dig1 :: ps, s =>
    match s with
    | [] => none
    | c :: r => if isDigitB c then matchPat ps (r.dropWhile isDigitB) else none

/-- The `\b` after a match: end of string or a non-word character. -/
def boundaryAfter : List Char → Bool
  | [] => true
  | c :: _ => !isWordChar c

/-- Does the pattern match at the head of `s`, ending at a word boundary? -/
def hitAt (p : List Pat) (s : List Char) : Bool :=
  match matchPat p s with
  | some r => boundaryAfter r
  | none => false

/-- Scan for `\b<pat>` anywhere in the input.  `prevWord` records whether the
previous character was a word character (so the leading `\b` holds exactly
when `prevWord` is false; all guard patterns start with a letter). -/
def searchPatAux (p : List Pat) : Bool → List Char → Bool
  | _, [] => false
  | prevWord, c :: rest =>
    (!prevWord && hitAt p (c :: rest)) || searchPatAux p (isWordChar c) rest

/-- Model of `re.search` applied to `\b<pat>` with the trailing boundary included in `hitAt`. -/
def searchPat (p : List Pat) (s : List Char) : Bool :=
  searchPatAux p false s

/-! ## sql_guard.py -/

/-- Model of `MAX_ROWS` from `sql_guard.py`. -/
def MAX_ROWS : Nat := 5000

/-- Model of `FORBIDDEN_TOKENS` from `sql_guard.py`, as word-boundary patterns
(`\bATTACH\b`, …, `\bCREATE\s+TABLE\b`), matched case-insensitively. -/
def FORBIDDEN_TOKENS : List (List Pat) :=
  [ [.lit ("ATTACH").data]
  , [.lit ("PRAGMA").data]
  , [.lit ("COPY").data]
  , [.lit ("EXPORT").data]
  , [.lit ("INSERT").data]
  , [.lit ("UPDATE").data]
  , [.lit ("DELETE").data]
  , [.lit ("DROP").data]
  , [.lit ("ALTER").data]
  , [.lit ("CREATE").data, .sp1, .lit ("TABLE").data]
  ]

/-- Does the (stripped) query contain any forbidden token? -/
def hasForbidden (s : List Char) : Bool :=
  FORBIDDEN_TOKENS.any (fun p => searchPat p s)

/-- Model of `re.match(r'^\s*select\b', s, re.IGNORECASE)`: leading whitespace, then
`select`, then a word boundary. -/
def startsSelect (s : List Char) : Bool :=
  match matchCharsCI ("select").data (s.dropWhile isPySpace) with
  | some r => boundaryAfter r
  | none => false

/-- Model of `\bLIMIT\s+\d+\b`. -/
def limitPat : List Pat := [.lit ("LIMIT").data, .sp1, .dig1]

/-- Model of `\bGROUP\s+BY\b`. -/
def groupByPat : List Pat := [.lit ("GROUP").data, .sp1, .lit ("BY").data]

/-- Model of `validate_sql` from `sql_guard.py`.  Raising `SQLValidationError` is
modelled as returning `.error`; the forbidden-token loop reports one fixed
message (the Python message interpolates the regex text, which no claim
depends on). -/
def validate_sql (sql : List Char) : Except String Unit :=
  if sql.isEmpty || (pyStrip sql).isEmpty then
    .error "Empty SQL query"
  else if !startsSelect (pyStrip sql) then
    .error "Only SELECT statements are allowed"
  else if hasForbidden (pyStrip sql) then
    .error "Forbidden token detected"
  else
    .ok ()

/-- The text appended by `add_limit_if_needed`: `f" LIMIT {MAX_ROWS};"`. -/
def limitSuffix : List Char :=
  (" LIMIT " ++ toString MAX_ROWS ++ ";").data

/-- Model of `add_limit_if_needed` from `sql_guard.py`. -/
def add_limit_if_needed (sql : List Char) : List Char :=
  let sqlClean := pyStrip sql
  if searchPat limitPat sqlClean then sqlClean
  else if searchPat groupByPat sqlClean then sqlClean
  else
    (if sqlClean.getLast? = some ';' then sqlClean.dropLast else sqlClean) ++ limitSuffix

/-- Model of `sanitize_sql` from `sql_guard.py`: strip, remove a leading ````` ```sql `````
marker and a trailing ````` ``` ````` marker, strip again, validate, add LIMIT.
The Python wrapper re-raises any failure as
`SQLValidationError(f"SQL validation failed: {e}")`. -/
def sanitize_sql (sql : List Char) : Except String (List Char) :=
  let c1 := pyStrip sql
  let c2 := if startsWithB c1 ("```sql").data then c1.drop 6 else c1
  let c3 := if endsWithB c2 ("```").data then c2.take (c2.length - 3) else c2
  let c := pyStrip c3
  match validate_sql c with
  | .error e => .error ("SQL validation failed: " ++ e)
  | .ok _ => .ok (add_limit_if_needed c)

/-! ### Fallback queries (`FALLBACK_QUERIES` and `get_fallback_query`) -/

/-- Model of `FALLBACK_QUERIES["monthly_category"]` (exact triple-quoted content). -/
def FB_monthly_category : List Char :=
  ("\n        select month, category, sum(revenue) as total_revenue\n        from sales_with_month\n        group by 1,2\n        order by 1,2;\n    ").data

/-- Model of `FALLBACK_QUERIES["channel_sales"]`. -/
def FB_channel_sales : List Char :=
  ("\n        select sales_channel, sum(revenue) as total_revenue\n        from sales\n        group by 1\n        order by total_revenue desc;\n    ").data

/-- Model of `FALLBACK_QUERIES["region_sales"]`. -/
def FB_region_sales : List Char :=
  ("\n        select region, sum(revenue) as total_revenue\n        from sales\n        group by 1\n        order by total_revenue desc;\n    ").data

/-- The f-string returned for a specific region (exact content, with the
region name interpolated). -/
def regionFilteredQuery (region : List Char) : List Char :=
  ("\n                select region, sum(revenue) as total_revenue\n                from sales\n                where region = \x27").data
  ++ region ++
  ("\x27\n                group by 1\n                order by total_revenue desc;\n            ").data

/-- The plain category query returned by `get_fallback_query`. -/
def categoryFallbackQuery : List Char :=
  ("\n            select category, sum(revenue) as total_revenue\n            from sales\n            group by 1\n            order by total_revenue desc;\n        ").data

/-- Model of `region_keywords` of `get_fallback_query`, in Python dict insertion order. -/
def fbRegionKeywords : List (List Char × List Char) :=
  [ (("北部").data, ("North").data), (("north").data, ("North").data), (("北").data, ("North").data)
  , (("南部").data, ("South").data), (("south").data, ("South").data), (("南").data, ("South").data)
  , (("東部").data, ("East").data), (("east").data, ("East").data), (("東").data, ("East").data)
  , (("西部").data, ("West").data), (("west").data, ("West").data), (("西").data, ("West").data)
  ]

/-- First keyword (in iteration order) contained in the lowered question. -/
def findRegion : List (List Char × List Char) → List Char → Option (List Char)
  | [], _ => none
  | (k, r) :: rest, q => if isSubstr k q then some r else findRegion rest q

/-- Model of `any(keyword in question_lower for keyword in ks)`. -/
def anyKw (ks : List (List Char)) (q : List Char) : Bool :=
  ks.any (fun k => isSubstr k q)

/-- Month keywords of `get_fallback_query`. -/
def fbMonthKws : List (List Char) :=
  [("月").data, ("month").data, ("月毎").data, ("月別").data, ("monthly").data]

/-- Category keywords of the month×category rule in `get_fallback_query`. -/
def fbMonthCatKws : List (List Char) :=
  [("カテゴリ").data, ("category").data, ("categories").data]

/-- Channel keywords of `get_fallback_query`. -/
def fbChannelKws : List (List Char) :=
  [("チャネル").data, ("channel").data, ("channels").data, ("sales_channel").data,
   ("オンライン").data, ("online").data, ("店舗").data, ("store").data]

/-- Generic region keywords of `get_fallback_query`. -/
def fbGenRegionKws : List (List Char) :=
  [("地域").data, ("region").data, ("regions").data, ("地方").data]

/-- Category keywords of the standalone category rule in `get_fallback_query`. -/
def fbCategoryKws : List (List Char) :=
  [("カテゴリ").data, ("category").data, ("categories").data,
   ("electronics").data, ("clothing").data, ("beauty").data, ("groceries").data]

/-- Model of `get_fallback_query` from `sql_guard.py`.  Note the source checks the
generic-region keywords *before* the standalone category keywords. -/
def get_fallback_query (question : List Char) : List Char :=
  let ql := lowerStr question
  match findRegion fbRegionKeywords ql with
  | some r => regionFilteredQuery r
  | none =>
    if anyKw fbMonthKws ql && anyKw fbMonthCatKws ql then FB_monthly_category
    else if anyKw fbChannelKws ql then FB_channel_sales
    else if anyKw fbGenRegionKws ql then FB_region_sales
    else if anyKw fbCategoryKws ql then categoryFallbackQuery
    else FB_region_sales

/-! ## llm_adapter.py -/

/-- The three adapter classes of `llm_adapter.py` (`MockLLMAdapter` is the
deterministic variant). -/
inductive Adapter where
  | openaiA (apiKey model : String)
  | anthropicA (apiKey model : String)
  | mockA
deriving DecidableEq

/-- The environment-style configuration read by `create_llm_adapter`, plus
whether the `openai` / `anthropic` packages imported successfully (their
constructors raise `ImportError` otherwise). -/
structure EnvConfig where
  llm_provider : Option String
  openai_api_key : Option String
  openai_model : Option String
  anthropic_api_key : Option String
  anthropic_model : Option String
  openaiInstalled : Bool
  anthropicInstalled : Bool
deriving DecidableEq

/-- Python truthiness of `os.getenv` results: unset or empty is falsy. -/
def falsyStr : Option String → Bool
  | none => true
  | some s => s.isEmpty

/-- Model of `create_llm_adapter` from `llm_adapter.py`.  A raised `ImportError` is
modelled as `.error`. -/
def create_llm_adapter (env : EnvConfig) : Except String Adapter :=
  let provider := String.mk (lowerStr ((env.llm_provider.getD "openai").data))
  if provider = "openai" then
    let model := env.openai_model.getD "gpt-4o-mini"
    if falsyStr env.openai_api_key then .ok .mockA
    else if env.openaiInstalled then .ok (.openaiA ((env.openai_api_key).getD "") model)
    else .error "openai package not installed"
  else if provider = "anthropic" then
    let model := env.anthropic_model.getD "claude-3-haiku-20240307"
    if falsyStr env.anthropic_api_key then .ok .mockA
    else if env.anthropicInstalled then .ok (.anthropicA ((env.anthropic_api_key).getD "") model)
    else .error "anthropic package not installed"
  else .ok .mockA

/-- Model of `region_map` of `MockLLMAdapter.generate_sql`, in dict insertion order
(note: a different order within each region block than `sql_guard.py`). -/
def mockRegionMap : List (List Char × List Char) :=
  [ (("北部").data, ("North").data), (("北").data, ("North").data), (("north").data, ("North").data)
  , (("南部").data, ("South").data), (("南").data, ("South").data), (("south").data, ("South").data)
  , (("東部").data, ("East").data), (("東").data, ("East").data), (("east").data, ("East").data)
  , (("西部").data, ("West").data), (("西").data, ("West").data), (("west").data, ("West").data)
  ]

/-- The region-filtered SQL returned by the mock adapter. -/
def mockRegionSQL (region : List Char) : List Char :=
  ("SELECT region, SUM(revenue) as total_revenue FROM sales WHERE region = \x27").data
  ++ region ++ ("\x27 GROUP BY 1 ORDER BY total_revenue DESC").data

/-- Mock adapter month×category SQL. -/
def mockMonthlySQL : List Char :=
  ("SELECT month, category, SUM(revenue) as total_revenue FROM sales_with_month GROUP BY 1,2 ORDER BY 1,2").data

/-- Mock adapter channel SQL. -/
def mockChannelSQL : List Char :=
  ("SELECT sales_channel, SUM(revenue) as total_revenue FROM sales GROUP BY 1 ORDER BY total_revenue DESC").data

/-- Mock adapter category SQL. -/
def mockCategorySQL : List Char :=
  ("SELECT category, SUM(revenue) as total_revenue FROM sales GROUP BY 1 ORDER BY total_revenue DESC").data

/-- Mock adapter generic-region (and default) SQL. -/
def mockRegionGenSQL : List Char :=
  ("SELECT region, SUM(revenue) as total_revenue FROM sales GROUP BY 1 ORDER BY total_revenue DESC").data

/-- Month keywords of the mock adapter (no `monthly`, unlike the fallback). -/
def mockMonthKws : List (List Char) :=
  [("月").data, ("month").data, ("月毎").data, ("月別").data]

/-- Category keywords of the mock adapter's month×category rule. -/
def mockCatKws : List (List Char) :=
  [("カテゴリ").data, ("category").data]

/-- Channel keywords of the mock adapter. -/
def mockChannelKws : List (List Char) :=
  [("チャネル").data, ("channel").data, ("オンライン").data, ("online").data, ("店舗").data, ("store").data]

/-- Standalone category keywords of the mock adapter. -/
def mockCatKws2 : List (List Char) :=
  [("カテゴリ").data, ("category").data, ("electronics").data, ("clothing").data]

/-- Generic region keywords of the mock adapter. -/
def mockGenRegionKws : List (List Char) :=
  [("地域").data, ("region").data, ("地方").data]

/-- Model of `MockLLMAdapter.generate_sql` from `llm_adapter.py` (the `schema`
parameter is unused by the source and omitted here).  Note the source checks
the standalone category keywords *before* the generic-region keywords —
the opposite order of `get_fallback_query`. -/
def mock_generate_sql (question : List Char) : List Char :=
  let ql := lowerStr question
  match findRegion mockRegionMap ql with
  | some r => mockRegionSQL r
  | none =>
    if anyKw mockMonthKws ql && anyKw mockCatKws ql then mockMonthlySQL
    else if anyKw mockChannelKws ql then mockChannelSQL
    else if anyKw mockCatKws2 ql then mockCategorySQL
    else if anyKw mockGenRegionKws ql then mockRegionGenSQL
    else mockRegionGenSQL

/-! ## viz.py

A pandas DataFrame is modelled column-schema + row-major cells.  Numbers are
modelled as integers (the claims under verification concern column selection
and null/parse-failure handling, not float arithmetic).  `pd.to_numeric(s,
errors="coerce").fillna(0)` maps unparseable and null entries to `0` and
always produces a numeric column; `pd.to_datetime(…, errors="coerce")` maps
unparseable entries to null (`NaT`).  Timestamps are modelled as integer
keys; ISO `YYYY-MM[-DD]` text parses to a key that is strictly monotone in
(year, month, day).  `sort_values` places nulls last; sortedness of the
output never depends on which stable/unstable algorithm pandas uses, and the
sort is modelled by insertion sort.  Streamlit/plotly effects are modelled
by the returned `VizResult`. -/

/-- One cell of a result table. -/
inductive Cell where
  | vInt (i : Int)
  | vStr (s : String)
  | vTime (t : Int)
  | vNull
deriving DecidableEq

/-- Declared dtype of a column. -/
inductive CType where
  | tNum
  | tText
  | tTime
deriving DecidableEq

/-- A result table: named, typed columns plus row-major cells. -/
structure DF where
  cols : List (String × CType)
  rows : List (List Cell)
deriving DecidableEq

/-- Column names in order. -/
def DF.names (d : DF) : List String := d.cols.map Prod.fst

/-- Parse a nonempty all-digit string. -/
def parseDigits : List Char → Option Nat
  | [] => none
  | cs =>
    if cs.all isDigitB then
      some (cs.foldl (fun acc c => acc * 10 + (c.toNat - ('0').toNat)) 0)
    else none

/-- Model of `pd.to_numeric` on one text entry: optional sign, then digits. -/
def parseNumStr (s : String) : Option Int :=
  match s.data with
  | '-' :: rest => (parseDigits rest).map (fun n => -(n : Int))
  | cs => (parseDigits cs).map (fun n => (n : Int))

/-- Model of `pd.to_datetime` on one text entry: ISO `YYYY-MM[-DD]`, mapped to a key
strictly monotone in (year, month, day); anything else is `NaT`. -/
def parseDateStr (s : String) : Option Int :=
  match (s.data).splitOn '-' with
  | [y, m] =>
    match parseDigits y, parseDigits m with
    | some yv, some mv =>
      if 1 ≤ mv && mv ≤ 12 then some (((yv * 12 + (mv - 1)) * 31 : Nat) : Int) else none
    | _, _ => none
  | [y, m, d] =>
    match parseDigits y, parseDigits m, parseDigits d with
    | some yv, some mv, some dv =>
      if 1 ≤ mv && mv ≤ 12 && 1 ≤ dv && dv ≤ 31 then
        some ((((yv * 12 + (mv - 1)) * 31 + (dv - 1) : Nat)) : Int)
      else none
    | _, _, _ => none
  | _ => none

/-- Model of `pd.to_datetime(cell, errors="coerce")` element-wise: timestamps stay,
integers are epoch values, text is parsed, nulls/failures are `NaT`. -/
def cellToTs : Cell → Option Int
  | .vTime t => some t
  | .vInt i => some i
  | .vNull => none
  | .vStr s => parseDateStr s

/-- Replace a cell by its parsed-timestamp form. -/
def tsCell (c : Cell) : Cell :=
  match cellToTs c with
  | some t => .vTime t
  | none => .vNull

/-- Model of `sort_values` key order: ascending, nulls (`NaT`) last. -/
def leKey : Option Int → Option Int → Bool
  | none, none => true
  | none, some _ => false
  | some _, none => true
  | some a, some b => a ≤ b

/-- Insert into a sorted list. -/
def insertSorted (le : α → α → Bool) (x : α) : List α → List α
  | [] => [x]
  | y :: ys => if le x y then x :: y :: ys else y :: insertSorted le x ys

/-- Insertion sort. -/
def isort (le : α → α → Bool) : List α → List α
  | [] => []
  | x :: xs => insertSorted le x (isort le xs)

/-- The month-handling prelude of `auto_visualize`: parse the `month` column
as timestamps (coercing failures to `NaT`) and sort rows ascending by it. -/
def parseMonthSort (d : DF) : DF :=
  let j := d.cols.findIdx (fun p => p.1 = "month")
  let cols := d.cols.map (fun p => if p.1 = "month" then (p.1, CType.tTime) else p)
  let rows := d.rows.map (fun r => r.set j (tsCell (r.getD j .vNull)))
  let rows := isort
    (fun r1 r2 => leKey (cellToTs (r1.getD j .vNull)) (cellToTs (r2.getD j .vNull))) rows
  ⟨cols, rows⟩

/-- Model of `pd.to_numeric(cell, errors="coerce").fillna(0)` element-wise: failures
and nulls become `0`; datetimes convert to their underlying key. -/
def parseCellNum : Cell → Int
  | .vInt i => i
  | .vStr s => (parseNumStr s).getD 0
  | .vNull => 0
  | .vTime t => t

/-- Model of `_coerce_numeric` from `viz.py`, applied to the named column of the
frame (writing the coerced column back, as `auto_visualize` does): a column
that is already numeric is returned untouched; otherwise every entry is
coerced with failures becoming `0`, and the column is numeric afterwards. -/
def coerceCol (d : DF) (name : String) : DF :=
  let j := d.cols.findIdx (fun p => p.1 = name)
  match d.cols.get? j with
  | some (_, CType.tNum) => d
  | _ =>
    ⟨d.cols.map (fun p => if p.1 = name then (p.1, CType.tNum) else p),
     d.rows.map (fun r => r.set j (Cell.vInt (parseCellNum (r.getD j Cell.vNull))))⟩

/-- Model of `df.reset_index()`: prepend an `index` column `0, 1, 2, …`. -/
def resetIndex (d : DF) : DF :=
  ⟨("index", CType.tNum) :: d.cols,
   (List.range d.rows.length).zipWith (fun i r => Cell.vInt (i : Int) :: r) d.rows⟩

/-- Model of `.astype(str)` on one cell (exact renderings are irrelevant to the
claims; pandas renders missing values as `"nan"`). -/
def cellStr : Cell → String
  | .vInt i => toString i
  | .vStr s => s
  | .vTime t => toString t
  | .vNull => "nan"

/-- Model of `.astype(str)` on the named column. -/
def astypeStrCol (d : DF) (name : String) : DF :=
  let j := d.cols.findIdx (fun p => p.1 = name)
  ⟨d.cols.map (fun p => if p.1 = name then (p.1, CType.tText) else p),
   d.rows.map (fun r => r.set j (Cell.vStr (cellStr (r.getD j Cell.vNull))))⟩

/-- The chart decision of `auto_visualize`: the Streamlit "no data" info
box, the "no numeric column" warning, or a plotly line/bar chart over the
transformed frame. -/
inductive VizResult where
  | noData
  | noNumericCol
  | line (d : DF) (x y : String) (color : Option String)
  | bar (d : DF) (x y : String)
deriving DecidableEq

/-- Model of `auto_visualize` from `viz.py`.  In this model `_coerce_numeric` always
yields a numeric column (`to_numeric(errors="coerce")` cannot raise on
scalar cells), so the value-selection loop over coercible columns selects
the first column whenever the frame has any column at all. -/
def auto_visualize (df0 : DF) : VizResult :=
  if df0.rows.isEmpty then .noData
  else
    let df1 := if df0.names.contains "month" then parseMonthSort df0 else df0
    let dims := ["category", "region", "sales_channel", "customer_segment"].filter
      (fun c => df1.names.contains c)
    let dim : Option String := dims.head?
    let val1 : Option String :=
      (["total_revenue", "revenue", "units", "unit_price"].filter
        (fun c => df1.names.contains c)).head?
    let val2 : Option String :=
      match val1 with
      | some v => some v
      | none => (df1.cols.find? (fun p => p.2 = CType.tNum)).map Prod.fst
    let step3 : DF × Option String :=
      match val2 with
      | some v => (df1, some v)
      | none =>
        match df1.cols with
        | [] => (df1, none)
        | (n, _) :: _ => (coerceCol df1 n, some n)
    match step3.2 with
    | none => .noNumericCol
    | some val =>
      let df2 := step3.1
      if df2.names.contains "month" then .line df2 "month" val dim
      else
        let xcol := dim.getD "index"
        let df3 := if dim.isNone then resetIndex df2 else df2
        let df4 := astypeStrCol df3 xcol
        let df5 := coerceCol df4 val
        .bar df5 xcol val

/-! ## chatbot_app.py -/

/-- One entry of `st.session_state.messages`.  Assistant messages carry
`has_data`, the stored result table and the executed SQL exactly when the
turn succeeded. -/
structure Turn where
  role : String
  content : String
  hasData : Bool
  resultDf : Option DF
  sqlStored : Option (List Char)
deriving DecidableEq

/-- The user message appended at the top of `process_and_store_question`. -/
def userTurn (q : String) : Turn := ⟨"user", q, false, none, none⟩

/-- A plain assistant text message (no data, no chart). -/
def assistantText (t : String) : Turn := ⟨"assistant", t, false, none, none⟩

/-- Step 1 of `process_and_store_question`: generate SQL and sanitize it;
any exception from either falls back to `get_fallback_query(question)`.
`genResult` is the outcome of the external `llm_adapter.generate_sql` call. -/
def chosenSql (genResult : Except String (List Char)) (question : String) : List Char :=
  match genResult with
  | .error _ => get_fallback_query question.data
  | .ok raw =>
    match sanitize_sql raw with
    | .error _ => get_fallback_query question.data
    | .ok s => s

/-- The `response_content` assembled on the success path (`response_parts`
joined with blank lines; the summary part is present only if
`llm_adapter.summarize` did not raise). -/
def successContent (sql : List Char) (nrows : Nat) (summary : Option String) : String :=
  let base := ["**生成SQL:**\n```sql\n" ++ String.mk sql ++ "\n```",
               "**結果:** " ++ toString nrows ++ "行のデータを取得"]
  let parts := match summary with
    | some s => base ++ ["**分析結果:** " ++ s]
    | none => base
  String.intercalate "\n\n" parts

/-- Model of `process_and_store_question` from `chatbot_app.py`.  External effects
are parameters: `genResult` is the generate-SQL call's outcome, `execute`
is the DuckDB engine, `summarizeResult` the summarize call's outcome.  The
function returns the new message list. -/
def process_and_store_question (msgs : List Turn) (question : String)
    (genResult : Except String (List Char)) (execute : List Char → Except String DF)
    (summarizeResult : Except String String) : List Turn :=
  let msgs1 := msgs ++ [userTurn question]
  let sql := chosenSql genResult question
  match execute sql with
  | .error e => msgs1 ++ [assistantText ("SQL実行エラー: " ++ e)]
  | .ok df =>
    if df.rows.isEmpty then
      msgs1 ++ [assistantText "クエリの結果が空でした。"]
    else
      let summary := match summarizeResult with
        | .ok s => some s
        | .error _ => none
      msgs1 ++ [⟨"assistant", successContent sql df.rows.length summary, true, some df, some sql⟩]

/-! ## Auxiliary definitions used by the statements and proofs -/

/-- Model of `EnvConfig` with the provider selector replaced. -/
def withProvider (env : EnvConfig) (p : Option String) : EnvConfig :=
  ⟨p, env.openai_api_key, env.openai_model, env.anthropic_api_key,
   env.anthropic_model, env.openaiInstalled, env.anthropicInstalled⟩

/-- Does the head of the list satisfy the predicate? -/
def headIsB (p : Char → Bool) : List Char → Bool
  | [] => false
  | c :: _ => p c

/-- Model of `inert suf w`: no nonempty tail of the literal `w` can begin a
(case-insensitive) match against `suf` — used to show that appending `suf`
cannot create new literal matches across the junction. -/
def inert (suf : List Char) : List Char → Bool
  | [] => true
  | a :: as => (matchCharsCI (a :: as) suf).isNone && inert suf as

/-- Model of `appendSafe suf p`: appending `suf` to any string cannot create or
destroy a match of pattern `p` across the junction.  Each conjunct handles
one way a partial match could continue into `suf`. -/
def appendSafe (suf : List Char) : List Pat → Bool
  | [] => true
  | .lit w :: ps =>
    !w.isEmpty && inert suf w && (matchPat (.lit w :: ps) suf).isNone && appendSafe suf ps
  | .sp1 :: ps =>
    !ps.isEmpty && (matchPat ps (suf.dropWhile isPySpace)).isNone &&
      (matchPat (.sp1 :: ps) suf).isNone && appendSafe suf ps
  | .dig1 :: ps =>
    (if ps.isEmpty then !(headIsB isDigitB suf)
     else (matchPat ps (suf.dropWhile isDigitB)).isNone) &&
      (matchPat (.dig1 :: ps) suf).isNone && appendSafe suf ps

/-- Model of `appendSafe` plus "no forbidden token occurs inside `suf` itself", for
every forbidden pattern. -/
def forbiddenAppendSafe (suf : List Char) : Bool :=
  FORBIDDEN_TOKENS.all
    (fun p => appendSafe suf p && !searchPatAux p true suf && !searchPatAux p false suf)

/-- The forbidden keywords as lowercase words, for stating "contains a
forbidden keyword as a substring". -/
def forbiddenWordsLower : List (List Char) :=
  [("attach").data, ("pragma").data, ("copy").data, ("export").data, ("insert").data,
   ("update").data, ("delete").data, ("drop").data, ("alter").data]

/-- Adjacent-pairs sortedness of a key list under `leKey` (ascending,
nulls last). -/
def sortedB : List (Option Int) → Bool
  | [] => true
  | [_] => true
  | a :: b :: t => leKey a b && sortedB (b :: t)

/-- The month key of a row, read at column index `j`. -/
def monthKeyAt (j : Nat) (r : List Cell) : Option Int :=
  cellToTs (r.getD j Cell.vNull)

/-! ## Theorems -/

/-- C6 (counterexample): with the provider selector absent but a provider
credential present, `create_llm_adapter` resolves to the OpenAI adapter and
not to the deterministic (mock) variant, refuting the claim that the
deterministic variant is the default whenever the selector is absent. -/
theorem c6_counterexample :
    create_llm_adapter ⟨none, some "k", none, none, none, true, true⟩
      = .ok (.openaiA "k" "gpt-4o-mini") ∧
    Except.ok Adapter.mockA ≠
      (create_llm_adapter ⟨none, some "k", none, none, none, true, true⟩ : Except String Adapter) := by
  have e : create_llm_adapter ⟨none, some "k", none, none, none, true, true⟩
      = .ok (.openaiA "k" "gpt-4o-mini") := rfl
  refine ⟨e, ?_⟩
  intro h
  rw [e] at h
  simp at h

/-- C6 (amended): adapter construction never raises when the relevant
credential is absent or empty, in which case it yields the deterministic
(mock) variant; any unrecognized provider selector (after lowercasing) also
yields the mock variant without raising; and an absent selector behaves
exactly like the selector `"openai"` (so the mock variant is the default on
absent selector only when the OpenAI credential is also absent). -/
theorem c6_amended_theorem :
    (∀ env : EnvConfig, falsyStr env.openai_api_key = true →
       falsyStr env.anthropic_api_key = true →
       create_llm_adapter env = .ok .mockA) ∧
    (∀ (env : EnvConfig) (p : String), env.llm_provider = some p →
       String.mk (lowerStr p.data) ≠ "openai" →
       String.mk (lowerStr p.data) ≠ "anthropic" →
       create_llm_adapter env = .ok .mockA) ∧
    (∀ env : EnvConfig, env.llm_provider = none →
       create_llm_adapter env = create_llm_adapter (withProvider env (some "openai"))) := by
  refine ⟨?_, ?_, ?_⟩
  · intro env h1 h2
    simp only [create_llm_adapter]
    split
    · simp [h1]
    · split
      · simp [h2]
      · rfl
  · intro env p hp h1 h2
    simp only [create_llm_adapter, hp, Option.getD]
    rw [if_neg h1, if_neg h2]
  · intro env hp
    simp [create_llm_adapter, withProvider, hp, Option.getD]

/-- Witness for C6 (amended): concrete configurations hitting all three
branches. -/
theorem c6_amended_witness :
    (falsyStr (some "") = true ∧ falsyStr none = true ∧
      create_llm_adapter ⟨some "openai", some "", none, none, none, true, true⟩ = .ok .mockA) ∧
    ((⟨some "gemini", some "k", none, some "k2", none, true, true⟩ : EnvConfig).llm_provider = some "gemini" ∧
      create_llm_adapter ⟨some "gemini", some "k", none, some "k2", none, true, true⟩ = .ok .mockA) ∧
    create_llm_adapter ⟨none, some "k", none, none, none, false, true⟩
      = create_llm_adapter (withProvider ⟨none, some "k", none, none, none, false, true⟩ (some "openai")) := by
  refine ⟨⟨rfl, rfl, ?_⟩, ⟨rfl, ?_⟩, ?_⟩
  · exact c6_amended_theorem.1 ⟨some "openai", some "", none, none, none, true, true⟩ rfl rfl
  · exact c6_amended_theorem.2.1 ⟨some "gemini", some "k", none, some "k2", none, true, true⟩
      "gemini" rfl (by decide) (by decide)
  · exact c6_amended_theorem.2.2 ⟨none, some "k", none, none, none, false, true⟩ rfl

/-- C10: whenever executing the chosen query fails, or succeeds with zero
rows, `process_and_store_question` appends the user turn plus exactly one
plain assistant turn carrying only an explanatory message (no result table,
no stored SQL, `hasData = false`, hence no chart), and attempts no further
fallback: the new message list is exactly the old one extended by those two
turns. -/
theorem c10_theorem (msgs : List Turn) (question : String)
    (gen : Except String (List Char)) (execute : List Char → Except String DF)
    (summ : Except String String) :
    (∀ e, execute (chosenSql gen question) = .error e →
       process_and_store_question msgs question gen execute summ =
         msgs ++ [userTurn question, assistantText ("SQL実行エラー: " ++ e)]) ∧
    (∀ df, execute (chosenSql gen question) = .ok df → df.rows = [] →
       process_and_store_question msgs question gen execute summ =
         msgs ++ [userTurn question, assistantText "クエリの結果が空でした。"]) := by
  constructor
  · intro e he
    simp [process_and_store_question, he]
  · intro df hdf hrows
    simp [process_and_store_question, hdf, hrows]

/-- Witness for C10: a failing engine and an empty result, on concrete
inputs. -/
theorem c10_witness :
    ((fun _ : List Char => (Except.error "Binder Error" : Except String DF))
        (chosenSql (.error "no key") "q") = .error "Binder Error" ∧
      process_and_store_question [] "q" (.error "no key")
          (fun _ : List Char => (Except.error "Binder Error" : Except String DF))
          (.error "no summary") =
        [userTurn "q", assistantText ("SQL実行エラー: " ++ "Binder Error")]) ∧
    ((fun _ : List Char => (Except.ok (⟨[("region", CType.tText)], []⟩ : DF) : Except String DF))
        (chosenSql (.error "no key") "q") = .ok ⟨[("region", CType.tText)], []⟩ ∧
      process_and_store_question [] "q" (.error "no key")
          (fun _ : List Char => (Except.ok (⟨[("region", CType.tText)], []⟩ : DF) : Except String DF))
          (.ok "s") =
        [userTurn "q", assistantText "クエリの結果が空でした。"]) := by
  constructor
  · exact ⟨rfl,
      (c10_theorem [] "q" (.error "no key")
        (fun _ : List Char => (Except.error "Binder Error" : Except String DF))
        (.error "no summary")).1 "Binder Error" rfl⟩
  · exact ⟨rfl,
      (c10_theorem [] "q" (.error "no key")
        (fun _ : List Char => (Except.ok (⟨[("region", CType.tText)], []⟩ : DF) : Except String DF))
        (.ok "s")).2
        ⟨[("region", CType.tText)], []⟩ rfl rfl⟩

/-- The mock adapter's region dictionary and the fallback selector's region
dictionary contain the same keyword→region entries (only the order inside
each directional block differs), so the first-match scan agrees on every
question. -/
theorem findRegion_mock_eq_fb (q : List Char) :
    findRegion mockRegionMap q = findRegion fbRegionKeywords q := by
  simp only [mockRegionMap, fbRegionKeywords, findRegion]
  by_cases h1 : isSubstr ("北部").data q = true <;> simp [h1] <;>
  by_cases h2 : isSubstr ("北").data q = true <;> simp [h2] <;>
  by_cases h3 : isSubstr ("north").data q = true <;> simp [h3] <;>
  by_cases h4 : isSubstr ("南部").data q = true <;> simp [h4] <;>
  by_cases h5 : isSubstr ("南").data q = true <;> simp [h5] <;>
  by_cases h6 : isSubstr ("south").data q = true <;> simp [h6] <;>
  by_cases h7 : isSubstr ("東部").data q = true <;> simp [h7] <;>
  by_cases h8 : isSubstr ("東").data q = true <;> simp [h8] <;>
  by_cases h9 : isSubstr ("east").data q = true <;> simp [h9] <;>
  by_cases h10 : isSubstr ("西部").data q = true <;> simp [h10] <;>
  by_cases h11 : isSubstr ("西").data q = true <;> simp [h11]

/-- C5 (counterexample): the question `"category region"` matches a category
keyword and a generic region keyword and none of rules 1–3, yet
`get_fallback_query` returns the region-grouped query, not the
category-grouped query the claim's rule order (category before generic
region) predicts. -/
theorem c5_counterexample :
    get_fallback_query ("category region").data = FB_region_sales ∧
    findRegion fbRegionKeywords (lowerStr ("category region").data) = none ∧
    (anyKw fbMonthKws (lowerStr ("category region").data) &&
      anyKw fbMonthCatKws (lowerStr ("category region").data)) = false ∧
    anyKw fbChannelKws (lowerStr ("category region").data) = false ∧
    anyKw fbGenRegionKws (lowerStr ("category region").data) = true ∧
    anyKw fbCategoryKws (lowerStr ("category region").data) = true ∧
    FB_region_sales ≠ categoryFallbackQuery := by
  refine ⟨by decide, by decide, by decide, by decide, by decide, by decide, by decide⟩

/-- C5 (amended): the Fallback Selector evaluates its rules in order with
first match wins, but with the last two rules swapped relative to the
claim: (1) specific region keyword → single-region filtered query; (2)
month + category keywords → month×category template; (3) channel keywords →
channel template; (4) a generic region keyword → region-grouped template;
(5) category keywords → category-grouped template; (6) default = region
template.  Hence a question matching a category keyword and a generic
region keyword (and none of rules 1–3) gets the REGION-grouped query;
`"北部地域の売上"` filters `region = 'North'`; the input `"south"` filters
`region = 'South'`; and month + category keywords yield the month×category
template. -/
theorem c5_amended_theorem :
    (∀ q : List Char,
       findRegion fbRegionKeywords (lowerStr q) = none →
       (anyKw fbMonthKws (lowerStr q) && anyKw fbMonthCatKws (lowerStr q)) = false →
       anyKw fbChannelKws (lowerStr q) = false →
       anyKw fbGenRegionKws (lowerStr q) = true →
       anyKw fbCategoryKws (lowerStr q) = true →
       get_fallback_query q = FB_region_sales) ∧
    get_fallback_query ("北部地域の売上").data = regionFilteredQuery ("North").data ∧
    get_fallback_query ("south").data = regionFilteredQuery ("South").data ∧
    (∀ q : List Char,
       findRegion fbRegionKeywords (lowerStr q) = none →
       anyKw fbMonthKws (lowerStr q) = true →
       anyKw fbMonthCatKws (lowerStr q) = true →
       get_fallback_query q = FB_monthly_category) := by
  refine ⟨?_, by decide, by decide, ?_⟩
  · intro q h1 h2 h3 h4 h5
    simp only [get_fallback_query, h1, h2, h3, h4]
    rfl
  · intro q h1 h2 h3
    simp only [get_fallback_query, h1, h2, h3]
    rfl

/-- Witness for C5 (amended): the universally quantified parts evaluated at
`"category region"` and `"月別のカテゴリ"`. -/
theorem c5_amended_witness :
    get_fallback_query ("category region").data = FB_region_sales ∧
    get_fallback_query ("月別のカテゴリ").data = FB_monthly_category := by
  constructor
  · exact c5_amended_theorem.1 ("category region").data
      (by decide) (by decide) (by decide) (by decide) (by decide)
  · exact c5_amended_theorem.2.2.2 ("月別のカテゴリ").data (by decide) (by decide) (by decide)

/-- C7 (counterexample): on the question `"category region"` the
deterministic adapter returns the category-grouped template while the
Fallback Selector returns the region-grouped template — different grouping
dimensions, refuting "same canned aggregate template for every question"
(the two keyword policies order the category and generic-region rules
differently). -/
theorem c7_counterexample :
    mock_generate_sql ("category region").data = mockCategorySQL ∧
    get_fallback_query ("category region").data = FB_region_sales ∧
    isSubstr ("select category").data (lowerStr mockCategorySQL) = true ∧
    isSubstr ("select category").data (lowerStr FB_region_sales) = false ∧
    isSubstr ("select region").data (lowerStr FB_region_sales) = true := by
  refine ⟨by decide, by decide, by decide, by decide, by decide⟩

/-- C7 (amended): both the deterministic adapter's `generate_sql` and the
Fallback Selector are total keyword policies that never raise, and they
agree whenever the question names a specific region: they then select the
single-region filtered, region-grouped, revenue-summed descending template
with the same region filter.  (On other questions the two policies may pick
different templates: their rule orders and keyword lists differ.) -/
theorem c7_amended_theorem (q r : List Char) :
    findRegion fbRegionKeywords (lowerStr q) = some r →
    mock_generate_sql q = mockRegionSQL r ∧
    get_fallback_query q = regionFilteredQuery r := by
  intro h
  constructor
  · simp only [mock_generate_sql, findRegion_mock_eq_fb, h]
  · simp only [get_fallback_query, h]

/-- Witness for C7 (amended): the question `"南部の売上"` names the South
region; both selectors produce the South-filtered template. -/
theorem c7_amended_witness :
    findRegion fbRegionKeywords (lowerStr ("南部の売上").data) = some ("South").data ∧
    mock_generate_sql ("南部の売上").data = mockRegionSQL ("South").data ∧
    get_fallback_query ("南部の売上").data = regionFilteredQuery ("South").data := by
  refine ⟨by decide, ?_, ?_⟩
  · exact (c7_amended_theorem ("南部の売上").data ("South").data (by decide)).1
  · exact (c7_amended_theorem ("南部の売上").data ("South").data (by decide)).2

/-! ### Sortedness infrastructure for the visualization claims -/

theorem leKey_total (a b : Option Int) : leKey a b = true ∨ leKey b a = true := by
  cases a <;> cases b <;> simp [leKey] <;> omega

theorem insertSorted_map_key (f : α → Option Int) (x : α) (l : List α) :
    (insertSorted (fun a b => leKey (f a) (f b)) x l).map f
      = insertSorted leKey (f x) (l.map f) := by
  induction l with
  | nil => rfl
  | cons y ys ih =>
    simp only [insertSorted]
    by_cases h : leKey (f x) (f y) = true
    · simp [h]
    · simp only [h, Bool.false_eq_true, if_false, List.map_cons, ih]

theorem insertSorted_sortedB (x : Option Int) (l : List (Option Int))
    (h : sortedB l = true) : sortedB (insertSorted leKey x l) = true := by
  induction l with
  | nil => rfl
  | cons y ys ih =>
    simp only [insertSorted]
    by_cases hxy : leKey x y = true
    · rw [if_pos hxy]
      simpa [sortedB, hxy] using h
    · rw [if_neg hxy]
      have hyx : leKey y x = true := (leKey_total x y).resolve_left hxy
      cases ys with
      | nil => simp [insertSorted, sortedB, hyx]
      | cons z zs =>
        simp only [sortedB, Bool.and_eq_true] at h
        have hrec := ih h.2
        simp only [insertSorted] at hrec ⊢
        by_cases hxz : leKey x z = true
        · rw [if_pos hxz] at hrec ⊢
          simp [sortedB, hyx, hxz, h.2]
        · rw [if_neg hxz] at hrec ⊢
          simp [sortedB, h.1, hrec]

theorem isort_key_sortedB (f : α → Option Int) (l : List α) :
    sortedB ((isort (fun a b => leKey (f a) (f b)) l).map f) = true := by
  induction l with
  | nil => rfl
  | cons x xs ih =>
    simp only [isort, insertSorted_map_key]
    exact insertSorted_sortedB _ _ ih

/-- C8: visualization inference on the three shapes of the claim.  A
nonempty `{month, category, total_revenue}` table yields a line chart with
`x = month`, `color = category`, `y = total_revenue`, and the chart's rows
are sorted ascending by the parsed month key (nulls last); a nonempty
`{region, total_revenue}` table yields a bar chart with `x = region`,
`y = total_revenue`; a zero-row table yields no chart. -/
theorem c8_theorem :
    (∀ rows : List (List Cell), rows ≠ [] →
       ∃ d : DF,
         auto_visualize ⟨[("month", CType.tTime), ("category", CType.tText),
                          ("total_revenue", CType.tNum)], rows⟩
             = .line d "month" "total_revenue" (some "category") ∧
           sortedB (d.rows.map (monthKeyAt 0)) = true) ∧
    (∀ rows : List (List Cell), rows ≠ [] →
       ∃ d : DF,
         auto_visualize ⟨[("region", CType.tText), ("total_revenue", CType.tNum)], rows⟩
             = .bar d "region" "total_revenue") ∧
    (∀ d : DF, d.rows = [] → auto_visualize d = .noData) := by
  refine ⟨?_, ?_, ?_⟩
  · intro rows hrows
    cases rows with
    | nil => exact absurd rfl hrows
    | cons r rs =>
      refine ⟨parseMonthSort ⟨[("month", CType.tTime), ("category", CType.tText),
        ("total_revenue", CType.tNum)], r :: rs⟩, rfl, ?_⟩
      exact isort_key_sortedB (monthKeyAt 0) _
  · intro rows hrows
    cases rows with
    | nil => exact absurd rfl hrows
    | cons r rs => exact ⟨_, rfl⟩
  · intro d h
    simp [auto_visualize, h]

/-- Witness for C8: concrete tables for all three shapes. -/
theorem c8_witness :
    (∃ d : DF,
       auto_visualize ⟨[("month", CType.tTime), ("category", CType.tText),
                        ("total_revenue", CType.tNum)],
                       [[.vTime 5, .vStr "B", .vInt 30], [.vTime 2, .vStr "A", .vInt 10]]⟩
           = .line d "month" "total_revenue" (some "category") ∧
         sortedB (d.rows.map (monthKeyAt 0)) = true) ∧
    (∃ d : DF,
       auto_visualize ⟨[("region", CType.tText), ("total_revenue", CType.tNum)],
                       [[.vStr "North", .vInt 10]]⟩
           = .bar d "region" "total_revenue") ∧
    auto_visualize ⟨[("region", CType.tText), ("total_revenue", CType.tNum)], []⟩ = .noData := by
  refine ⟨?_, ?_, ?_⟩
  · exact c8_theorem.1 [[.vTime 5, .vStr "B", .vInt 30], [.vTime 2, .vStr "A", .vInt 10]]
      (by decide)
  · exact c8_theorem.2.1 [[.vStr "North", .vInt 10]] (by decide)
  · exact c8_theorem.2.2 ⟨[("region", CType.tText), ("total_revenue", CType.tNum)], []⟩ rfl

/-- Model of `_coerce_numeric` writes back a column of the same name: the column
names of the frame are unchanged. -/
theorem coerceCol_names (d : DF) (name : String) :
    (coerceCol d name).cols.map Prod.fst = d.cols.map Prod.fst := by
  simp only [coerceCol]
  split
  · rfl
  · simp only [List.map_map]
    refine List.map_congr_left ?_
    intro a _
    by_cases h : a.1 = name <;> simp [h]

/-- C9 (counterexample): a one-column table whose only column is text with
no value parsing as a number (`"abc"`, `"def"`).  The claim says such a
column does not qualify under coercion and the result is "no numeric
column"; the code nevertheless coerces it (every entry becomes `0`),
selects it as the value column and draws a bar chart over the synthesized
row-index column. -/
theorem c9_counterexample :
    auto_visualize ⟨[("name", CType.tText)], [[.vStr "abc"], [.vStr "def"]]⟩
        = .bar ⟨[("index", CType.tText), ("name", CType.tNum)],
                [[.vStr "0", .vInt 0], [.vStr "1", .vInt 0]]⟩ "index" "name" ∧
    auto_visualize ⟨[("name", CType.tText)], [[.vStr "abc"], [.vStr "def"]]⟩
        ≠ .noNumericCol ∧
    parseNumStr "abc" = none := by
  refine ⟨by decide, by decide, by decide⟩

/-- C9 (amended): the value column is selected by: first match in the fixed
preference list (`total_revenue` first); otherwise the first column whose
declared type is numeric; otherwise the *first remaining column* is coerced
— coercion never raises and every value that fails to parse (and every
null) becomes zero, so a text column qualifies even when no value parses —
and the "no numeric column" outcome occurs only for a table with no columns
at all.  Stated on month-free tables (the line branch selects its value
column by the same rule). -/
theorem c9_amended_theorem :
    (∀ (cols : List (String × CType)) (rows : List (List Cell)),
       rows ≠ [] →
       "month" ∉ cols.map Prod.fst →
       "total_revenue" ∈ cols.map Prod.fst →
       ∃ (d : DF) (x : String), auto_visualize ⟨cols, rows⟩ = .bar d x "total_revenue") ∧
    (∀ (cols : List (String × CType)) (rows : List (List Cell)) (nt : String × CType),
       rows ≠ [] →
       "month" ∉ cols.map Prod.fst →
       "total_revenue" ∉ cols.map Prod.fst → "revenue" ∉ cols.map Prod.fst →
       "units" ∉ cols.map Prod.fst → "unit_price" ∉ cols.map Prod.fst →
       cols.find? (fun p => p.2 = CType.tNum) = some nt →
       ∃ (d : DF) (x : String), auto_visualize ⟨cols, rows⟩ = .bar d x nt.1) ∧
    (∀ (n : String) (rest : List (String × CType)) (rows : List (List Cell)),
       rows ≠ [] →
       "month" ∉ ((n, CType.tText) :: rest).map Prod.fst →
       "total_revenue" ∉ ((n, CType.tText) :: rest).map Prod.fst →
       "revenue" ∉ ((n, CType.tText) :: rest).map Prod.fst →
       "units" ∉ ((n, CType.tText) :: rest).map Prod.fst →
       "unit_price" ∉ ((n, CType.tText) :: rest).map Prod.fst →
       ((n, CType.tText) :: rest).find? (fun p => p.2 = CType.tNum) = none →
       ∃ (d : DF) (x : String),
         auto_visualize ⟨(n, CType.tText) :: rest, rows⟩ = .bar d x n) ∧
    (∀ rows : List (List Cell), rows ≠ [] →
       auto_visualize ⟨[], rows⟩ = .noNumericCol) ∧
    (∀ s : String, parseNumStr s = none → parseCellNum (.vStr s) = 0) := by
  refine ⟨?_, ?_, ?_, ?_, ?_⟩
  · intro cols rows hrows hmonth htr
    cases rows with
    | nil => exact absurd rfl hrows
    | cons r rs =>
      simp [auto_visualize, DF.names, hmonth, htr]
  · intro cols rows nt hrows hmonth h1 h2 h3 h4 hfind
    cases rows with
    | nil => exact absurd rfl hrows
    | cons r rs =>
      simp [auto_visualize, DF.names, hmonth, h1, h2, h3, h4, hfind]
  · intro n rest rows hrows hmonth h1 h2 h3 h4 hfind
    cases rows with
    | nil => exact absurd rfl hrows
    | cons r rs =>
      simp only [List.map_cons, List.mem_cons, not_or] at hmonth h1 h2 h3 h4
      have hc : ((n :: rest.map Prod.fst).contains "month") = false := by
        simp [hmonth.1, hmonth.2]
      have hval1 : (["total_revenue", "revenue", "units", "unit_price"].filter
          (fun c => (n :: rest.map Prod.fst).contains c)) = [] := by
        simp [h1.1, h1.2, h2.1, h2.2, h3.1, h3.2, h4.1, h4.2]
      simp only [auto_visualize, DF.names, List.map_cons, List.isEmpty_cons, hc,
        Bool.false_eq_true, if_false, hval1, hfind]
      simp [hfind]
      have hc2 : ((coerceCol ⟨(n, CType.tText) :: rest, r :: rs⟩ n).cols.map
          Prod.fst).contains "month" = false := by
        rw [coerceCol_names]
        simp [hmonth.1, hmonth.2]
      simp only [hc2, Bool.false_eq_true, if_false]
      exact ⟨_, _, rfl⟩
  · intro rows hrows
    cases rows with
    | nil => exact absurd rfl hrows
    | cons r rs => rfl
  · intro s hs
    simp [parseCellNum, hs]

/-- Witness for C9 (amended): concrete tables exercising every rule of the
amended value-selection policy. -/
theorem c9_amended_witness :
    (∃ (d : DF) (x : String),
       auto_visualize ⟨[("region", CType.tText), ("total_revenue", CType.tNum)],
                       [[.vStr "North", .vInt 10]]⟩ = .bar d x "total_revenue") ∧
    (∃ (d : DF) (x : String),
       auto_visualize ⟨[("label", CType.tText), ("qty", CType.tNum)],
                       [[.vStr "a", .vInt 3]]⟩ = .bar d x "qty") ∧
    (∃ (d : DF) (x : String),
       auto_visualize ⟨[("name", CType.tText)], [[.vStr "abc"], [.vStr "def"]]⟩
           = .bar d x "name") ∧
    auto_visualize ⟨[], [[], []]⟩ = .noNumericCol ∧
    parseCellNum (.vStr "abc") = 0 := by
  refine ⟨?_, ?_, ?_, ?_, ?_⟩
  · exact c9_amended_theorem.1 [("region", CType.tText), ("total_revenue", CType.tNum)]
      [[.vStr "North", .vInt 10]] (by decide) (by decide) (by decide)
  · exact c9_amended_theorem.2.1 [("label", CType.tText), ("qty", CType.tNum)]
      [[.vStr "a", .vInt 3]] ("qty", CType.tNum) (by decide) (by decide) (by decide)
      (by decide) (by decide) (by decide) (by decide)
  · exact c9_amended_theorem.2.2.1 "name" [] [[.vStr "abc"], [.vStr "def"]]
      (by decide) (by decide) (by decide) (by decide) (by decide) (by decide) (by decide)
  · exact c9_amended_theorem.2.2.2.1 [[], []] (by decide)
  · exact c9_amended_theorem.2.2.2.2 "abc" (by decide)

/-! ### Appending an inert suffix does not change pattern searches -/

theorem dropWhile_append_of_ne_nil (p : Char → Bool) (l suf : List Char)
    (h : l.dropWhile p ≠ []) :
    (l ++ suf).dropWhile p = l.dropWhile p ++ suf := by
  induction l with
  | nil => simp at h
  | cons a l' ih =>
    by_cases hp : p a = true
    · simp only [List.dropWhile_cons, hp, if_true] at h ⊢
      simp only [List.cons_append, List.dropWhile_cons, hp, if_true]
      exact ih h
    · simp only [List.cons_append, List.dropWhile_cons, hp]
      simp

theorem dropWhile_append_of_nil (p : Char → Bool) (l suf : List Char)
    (h : l.dropWhile p = []) :
    (l ++ suf).dropWhile p = suf.dropWhile p := by
  induction l with
  | nil => rfl
  | cons a l' ih =>
    by_cases hp : p a = true
    · simp only [List.dropWhile_cons, hp, if_true] at h
      simp only [List.cons_append, List.dropWhile_cons, hp, if_true]
      exact ih h
    · simp [List.dropWhile_cons, hp] at h

theorem dropWhile_of_head_false (p : Char → Bool) (l : List Char)
    (h : headIsB p l = false) : l.dropWhile p = l := by
  cases l with
  | nil => rfl
  | cons a l' =>
    simp only [headIsB] at h
    simp [List.dropWhile_cons, h]

theorem inert_tail (suf : List Char) (a : Char) (as : List Char)
    (h : inert suf (a :: as) = true) :
    matchCharsCI (a :: as) suf = none ∧ inert suf as = true := by
  simp only [inert, Bool.and_eq_true, Option.isNone_iff_eq_none] at h
  exact h

theorem matchCharsCI_append (suf : List Char) :
    ∀ (y w : List Char), inert suf w = true →
      matchCharsCI w (y ++ suf) = (matchCharsCI w y).map (fun r => r ++ suf) := by
  intro y
  induction y with
  | nil =>
    intro w hw
    cases w with
    | nil => simp [matchCharsCI]
    | cons a as =>
      rw [List.nil_append, (inert_tail suf a as hw).1]
      rfl
  | cons b y' ih =>
    intro w hw
    cases w with
    | nil => simp [matchCharsCI]
    | cons a as =>
      simp only [List.cons_append, matchCharsCI]
      by_cases h : lcChar a = lcChar b
      · rw [if_pos h, if_pos h]
        exact ih as (inert_tail suf a as hw).2
      · rw [if_neg h, if_neg h]
        rfl

theorem matchPat_nil_none (suf : List Char) (ps : List Pat)
    (h : appendSafe suf ps = true) (hne : ps ≠ []) : matchPat ps [] = none := by
  cases ps with
  | nil => exact absurd rfl hne
  | cons pc ps' =>
    cases pc with
    | lit w =>
      simp only [appendSafe, Bool.and_eq_true] at h
      cases w with
      | nil => simp at h
      | cons a as => rfl
    | sp1 => rfl
    | dig1 => rfl

theorem matchPat_append (suf : List Char) :
    ∀ p : List Pat, appendSafe suf p = true →
      ∀ y, matchPat p (y ++ suf) = (matchPat p y).map (fun r => r ++ suf) := by
  intro p
  induction p with
  | nil =>
    intro _ y
    simp [matchPat]
  | cons pc ps ih =>
    intro h y
    cases pc with
    | lit w =>
      simp only [appendSafe, Bool.and_eq_true, Option.isNone_iff_eq_none] at h
      obtain ⟨⟨⟨hw0, hwin⟩, hnone⟩, hsafe⟩ := h
      simp only [matchPat]
      rw [matchCharsCI_append suf y w hwin]
      cases hm : matchCharsCI w y with
      | none => rfl
      | some r => exact ih hsafe r
    | sp1 =>
      simp only [appendSafe, Bool.and_eq_true, Option.isNone_iff_eq_none,
        Bool.not_eq_true'] at h
      obtain ⟨⟨⟨hne0, hdrop⟩, hnone⟩, hsafe⟩ := h
      have hne : ps ≠ [] := by
        intro hnil
        rw [hnil] at hne0
        simp at hne0
      cases y with
      | nil =>
        rw [List.nil_append, hnone]
        rfl
      | cons c y' =>
        simp only [List.cons_append, matchPat]
        by_cases hc : isPySpace c = true
        · rw [if_pos hc, if_pos hc]
          cases hz : y'.dropWhile isPySpace with
          | nil =>
            rw [dropWhile_append_of_nil _ _ _ hz, hdrop,
              matchPat_nil_none suf ps hsafe hne]
            rfl
          | cons z zs =>
            rw [dropWhile_append_of_ne_nil _ _ _ (by rw [hz]; exact List.cons_ne_nil z zs), hz]
            exact ih hsafe (z :: zs)
        · rw [if_neg hc, if_neg hc]
          rfl
    | dig1 =>
      simp only [appendSafe, Bool.and_eq_true, Option.isNone_iff_eq_none] at h
      obtain ⟨⟨hd, hnone⟩, hsafe⟩ := h
      cases y with
      | nil =>
        rw [List.nil_append, hnone]
        rfl
      | cons c y' =>
        simp only [List.cons_append, matchPat]
        by_cases hc : isDigitB c = true
        · rw [if_pos hc, if_pos hc]
          cases ps with
          | nil =>
            simp only [List.isEmpty_nil, if_true, Bool.not_eq_true'] at hd
            simp only [matchPat]
            cases hz : y'.dropWhile isDigitB with
            | nil =>
              rw [dropWhile_append_of_nil _ _ _ hz, dropWhile_of_head_false _ _ hd]
              rfl
            | cons z zs =>
              rw [dropWhile_append_of_ne_nil _ _ _ (by rw [hz]; exact List.cons_ne_nil z zs), hz]
              rfl
          | cons q qs =>
            simp only [List.isEmpty_cons, Bool.false_eq_true, if_false,
              Option.isNone_iff_eq_none] at hd
            cases hz : y'.dropWhile isDigitB with
            | nil =>
              rw [dropWhile_append_of_nil _ _ _ hz, hd,
                matchPat_nil_none suf (q :: qs) hsafe (List.cons_ne_nil q qs)]
              rfl
            | cons z zs =>
              rw [dropWhile_append_of_ne_nil _ _ _ (by rw [hz]; exact List.cons_ne_nil z zs), hz]
              exact ih hsafe (z :: zs)
        · rw [if_neg hc, if_neg hc]
          rfl

theorem hitAt_append (suf : List Char) (p : List Pat)
    (hsafe : appendSafe suf p = true) (hb : boundaryAfter suf = true) (y : List Char) :
    hitAt p (y ++ suf) = hitAt p y := by
  simp only [hitAt]
  rw [matchPat_append suf p hsafe y]
  cases hm : matchPat p y with
  | none => rfl
  | some r =>
    cases r with
    | nil => simpa [boundaryAfter] using hb
    | cons x xs => rfl

theorem searchPatAux_append (suf : List Char) (p : List Pat)
    (hsafe : appendSafe suf p = true) (hb : boundaryAfter suf = true)
    (hfalse : ∀ b, searchPatAux p b suf = false) :
    ∀ (y : List Char) (b : Bool), searchPatAux p b (y ++ suf) = searchPatAux p b y := by
  intro y
  induction y with
  | nil =>
    intro b
    rw [List.nil_append, hfalse b]
    rfl
  | cons c y' ih =>
    intro b
    have hh := hitAt_append suf p hsafe hb (c :: y')
    rw [List.cons_append] at hh
    simp only [List.cons_append, searchPatAux, List.append_eq, hh, ih (isWordChar c)]

theorem list_any_congr {α : Type} (f g : α → Bool) :
    ∀ l : List α, (∀ a ∈ l, f a = g a) → l.any f = l.any g := by
  intro l h
  induction l with
  | nil => rfl
  | cons a as ih =>
    simp only [List.any_cons, h a (List.mem_cons_self a as),
      ih (fun b hb => h b (List.mem_cons_of_mem a hb))]

theorem hasForbidden_append (suf : List Char) (hb : boundaryAfter suf = true)
    (hall : forbiddenAppendSafe suf = true) (y : List Char) :
    hasForbidden (y ++ suf) = hasForbidden y := by
  simp only [hasForbidden]
  refine list_any_congr _ _ FORBIDDEN_TOKENS ?_
  intro p hp
  have h := (List.all_eq_true.mp hall) p hp
  simp only [Bool.and_eq_true, Bool.not_eq_true'] at h
  refine searchPatAux_append suf p h.1.1 hb ?_ y false
  intro b
  cases b
  · exact h.2
  · exact h.1.2

/-- Any string followed by the appended `" LIMIT 5000;"` suffix matches
`\bLIMIT\s+\d+\b` — `add_limit_if_needed` detects its own output. -/
theorem searchPat_limit_found (y : List Char) :
    ∀ b, searchPatAux limitPat b (y ++ limitSuffix) = true := by
  induction y with
  | nil =>
    intro b
    cases b <;> decide
  | cons c y' ih =>
    intro b
    simp only [List.cons_append, searchPatAux, List.append_eq, ih (isWordChar c), Bool.or_true]

/-! ### `str.strip()` lemmas -/

theorem dropWhile_head_false (p : Char → Bool) :
    ∀ (l : List Char) (a : Char) (t : List Char), l.dropWhile p = a :: t → p a = false := by
  intro l
  induction l with
  | nil => intro a t h; simp at h
  | cons c l' ih =>
    intro a t h
    by_cases hp : p c = true
    · rw [List.dropWhile_cons, if_pos hp] at h
      exact ih a t h
    · rw [List.dropWhile_cons, if_neg hp] at h
      cases h
      simpa using hp

theorem dropWhile_all_append (p : Char → Bool) :
    ∀ (ws l : List Char), ws.all p = true → (ws ++ l).dropWhile p = l.dropWhile p := by
  intro ws
  induction ws with
  | nil => intro l _; rfl
  | cons a ws' ih =>
    intro l h
    simp only [List.all_cons, Bool.and_eq_true] at h
    simp only [List.cons_append, List.dropWhile_cons, h.1, if_true]
    exact ih l h.2

theorem dropWhile_all_nil (p : Char → Bool) :
    ∀ l : List Char, l.all p = true → l.dropWhile p = [] := by
  intro l h
  have := dropWhile_all_append p l [] h
  simpa using this

theorem dropTrailingSp_append_ws (z ws : List Char) (h : ws.all isPySpace = true) :
    dropTrailingSp (z ++ ws) = dropTrailingSp z := by
  simp only [dropTrailingSp, List.reverse_append]
  rw [dropWhile_all_append isPySpace ws.reverse z.reverse (by simpa using h)]

theorem pyStrip_append_ws (ws1 x ws2 : List Char)
    (h1 : ws1.all isPySpace = true) (h2 : ws2.all isPySpace = true) :
    pyStrip (ws1 ++ (x ++ ws2)) = pyStrip x := by
  simp only [pyStrip]
  rw [dropWhile_all_append isPySpace ws1 (x ++ ws2) h1]
  cases hz : x.dropWhile isPySpace with
  | nil =>
    rw [dropWhile_append_of_nil isPySpace x ws2 hz, dropWhile_all_nil isPySpace ws2 h2]
  | cons z zs =>
    rw [dropWhile_append_of_ne_nil isPySpace x ws2 (by rw [hz]; exact List.cons_ne_nil z zs), hz,
      dropTrailingSp_append_ws (z :: zs) ws2 h2]

theorem pyStrip_head_not_space (x : List Char) (a : Char) (t : List Char)
    (h : pyStrip x = a :: t) : isPySpace a = false := by
  simp only [pyStrip, dropTrailingSp] at h
  have hsuf : (x.dropWhile isPySpace).reverse.dropWhile isPySpace <:+
      (x.dropWhile isPySpace).reverse :=
    List.dropWhile_suffix isPySpace
  have hpre : ((x.dropWhile isPySpace).reverse.dropWhile isPySpace).reverse <+:
      x.dropWhile isPySpace := by
    have h2 := List.reverse_prefix.mpr hsuf
    simpa using h2
  rw [h] at hpre
  obtain ⟨u, hu⟩ := hpre
  exact dropWhile_head_false isPySpace x a (t ++ u) (by rw [← hu]; rfl)

theorem pyStrip_reverse (x : List Char) :
    (pyStrip x).reverse = (x.dropWhile isPySpace).reverse.dropWhile isPySpace := by
  simp [pyStrip, dropTrailingSp]

theorem pyStrip_last_not_space (x : List Char) (b : Char) (u : List Char)
    (h : (pyStrip x).reverse = b :: u) : isPySpace b = false := by
  rw [pyStrip_reverse] at h
  exact dropWhile_head_false isPySpace _ b u h

theorem pyStrip_eq_self (l : List Char)
    (h1 : headIsB isPySpace l = false) (h2 : headIsB isPySpace l.reverse = false) :
    pyStrip l = l := by
  simp only [pyStrip]
  rw [dropWhile_of_head_false isPySpace l h1]
  simp only [dropTrailingSp]
  rw [dropWhile_of_head_false isPySpace l.reverse h2, List.reverse_reverse]

theorem pyStrip_idem (x : List Char) : pyStrip (pyStrip x) = pyStrip x := by
  cases hp : pyStrip x with
  | nil => rfl
  | cons a t =>
    refine pyStrip_eq_self (a :: t) ?_ ?_
    · simpa [headIsB] using pyStrip_head_not_space x a t hp
    · cases hr : (a :: t).reverse with
      | nil => simp at hr
      | cons b u =>
        have := pyStrip_last_not_space x b u (by rw [hp, hr])
        simpa [headIsB] using this

/-! ### C1 and C2 -/

/-- C1: any input whose stripped form contains a forbidden token as a whole
word-boundary token (case-insensitively) makes `validate_sql` raise
`SQLValidationError`; and any input that starts with `SELECT` and contains
forbidden keywords only as proper substrings of longer identifiers (so no
whole-token match) is accepted. -/
theorem c1_theorem :
    (∀ sql : List Char, hasForbidden (pyStrip sql) = true →
       ∃ e, validate_sql sql = .error e) ∧
    (∀ sql : List Char,
       startsSelect (pyStrip sql) = true →
       (forbiddenWordsLower.any (fun w => isSubstr w (lowerStr (pyStrip sql)))) = true →
       hasForbidden (pyStrip sql) = false →
       validate_sql sql = .ok ()) := by
  constructor
  · intro sql h
    have hne : (pyStrip sql).isEmpty = false := by
      cases hp : pyStrip sql with
      | nil => rw [hp] at h; exact absurd h (by decide)
      | cons a t => rfl
    have hsqlne : sql.isEmpty = false := by
      cases sql with
      | nil => exact absurd hne (by decide)
      | cons a t => rfl
    simp only [validate_sql, hsqlne, hne, Bool.or_self, Bool.false_eq_true, if_false]
    by_cases hsel : startsSelect (pyStrip sql) = true
    · simp [hsel, h]
    · simp [hsel]
  · intro sql hsel hsub hnf
    have hne : (pyStrip sql).isEmpty = false := by
      cases hp : pyStrip sql with
      | nil => rw [hp] at hsel; exact absurd hsel (by decide)
      | cons a t => rfl
    have hsqlne : sql.isEmpty = false := by
      cases sql with
      | nil => exact absurd hne (by decide)
      | cons a t => rfl
    simp [validate_sql, hsqlne, hne, hsel, hnf]

/-- Witness for C1: `"DELETE FROM sales"` contains the whole token `DELETE`
and is rejected; `"select updated_at from sales"` contains `update` only
inside the identifier `updated_at` and is accepted. -/
theorem c1_witness :
    (∃ e, validate_sql ("DELETE FROM sales").data = .error e) ∧
    validate_sql ("select updated_at from sales").data = .ok () := by
  constructor
  · exact c1_theorem.1 ("DELETE FROM sales").data (by decide)
  · exact c1_theorem.2 ("select updated_at from sales").data (by decide) (by decide) (by decide)

/-- C2: on a Guard-accepted statement, `add_limit_if_needed` (i) appends
`" LIMIT 5000;"` after removing a terminating semicolon when the statement
has neither an explicit `LIMIT <n>` nor a `GROUP BY`, (ii) leaves a
statement with an explicit `LIMIT` unchanged, and (iii) leaves a statement
with `GROUP BY` unchanged — it never appends a LIMIT there. -/
theorem c2_theorem :
    (∀ sql : List Char, validate_sql sql = .ok () →
       searchPat limitPat (pyStrip sql) = false →
       searchPat groupByPat (pyStrip sql) = false →
       add_limit_if_needed sql =
         (if (pyStrip sql).getLast? = some ';' then (pyStrip sql).dropLast else pyStrip sql)
           ++ limitSuffix) ∧
    (∀ sql : List Char, validate_sql sql = .ok () → pyStrip sql = sql →
       searchPat limitPat sql = true →
       add_limit_if_needed sql = sql) ∧
    (∀ sql : List Char, validate_sql sql = .ok () → pyStrip sql = sql →
       searchPat groupByPat sql = true →
       add_limit_if_needed sql = sql) := by
  refine ⟨?_, ?_, ?_⟩
  · intro sql _ h1 h2
    simp [add_limit_if_needed, h1, h2]
  · intro sql _ hstrip h1
    simp [add_limit_if_needed, hstrip, h1]
  · intro sql _ hstrip h2
    by_cases h1 : searchPat limitPat sql = true
    · simp [add_limit_if_needed, hstrip, h1]
    · simp [add_limit_if_needed, hstrip, h1, h2]

/-- Witness for C2: the three branches on concrete accepted statements. -/
theorem c2_witness :
    add_limit_if_needed ("select * from sales;").data =
      (if (pyStrip ("select * from sales;").data).getLast? = some ';'
       then (pyStrip ("select * from sales;").data).dropLast
       else pyStrip ("select * from sales;").data) ++ limitSuffix ∧
    add_limit_if_needed ("select * from sales limit 10").data =
      ("select * from sales limit 10").data ∧
    add_limit_if_needed ("select region, sum(revenue) from sales group by 1;").data =
      ("select region, sum(revenue) from sales group by 1;").data := by
  refine ⟨?_, ?_, ?_⟩
  · exact c2_theorem.1 ("select * from sales;").data (by rfl) (by decide) (by decide)
  · exact c2_theorem.2.1 ("select * from sales limit 10").data (by rfl) (by decide) (by decide)
  · exact c2_theorem.2.2 ("select region, sum(revenue) from sales group by 1;").data
      (by rfl) (by decide) (by decide)

/-! ### C4 -/

theorem isPrefixB_append_self : ∀ w x : List Char, isPrefixB w (w ++ x) = true := by
  intro w
  induction w with
  | nil => intro x; rfl
  | cons a as ih =>
    intro x
    simp only [List.cons_append, isPrefixB]
    simp [ih x]

theorem take_append_self : ∀ s e : List Char, (s ++ e).take s.length = s := by
  intro s
  induction s with
  | nil => intro e; rfl
  | cons a t ih =>
    intro e
    simp only [List.cons_append, List.length_cons, List.take_succ_cons, ih e]

/-- C4 (counterexample): a valid SELECT statement inside a *bare* code
fence (no language tag) is not unwrapped — `sanitize_sql` only strips the
exact ````` ```sql ````` prefix — and the statement is rejected for not
beginning with SELECT, refuting "any enclosing fence, with or without a
language tag". -/
theorem c4_counterexample :
    validate_sql ("select 1").data = .ok () ∧
    sanitize_sql ("```\nselect 1\n```").data =
      .error "SQL validation failed: Only SELECT statements are allowed" := by
  exact ⟨rfl, rfl⟩

/-- C4 (amended): the Guard strips surrounding whitespace and an enclosing
code fence whose opening marker is exactly the lowercase ````` ```sql `````
tag (closing marker ````` ``` `````), and then validates the inner
statement: on such inputs `sanitize_sql` behaves exactly as on the bare
inner statement.  Fences without a language tag (or with any other tag) are
not stripped and fail the SELECT check. -/
theorem c4_amended_theorem (s ws1 ws2 : List Char)
    (hws1 : ws1.all isPySpace = true) (hws2 : ws2.all isPySpace = true)
    (hpre : startsWithB (pyStrip s) ("```sql").data = false)
    (hsuf : endsWithB (pyStrip s) ("```").data = false) :
    sanitize_sql (ws1 ++ (("```sql").data ++ (s ++ (("```").data ++ ws2)))) = sanitize_sql s := by
  have hassoc : ws1 ++ (("```sql").data ++ (s ++ (("```").data ++ ws2)))
      = ws1 ++ ((("```sql").data ++ (s ++ ("```").data)) ++ ws2) := by
    simp [List.append_assoc]
  have hstrip1 : pyStrip (ws1 ++ (("```sql").data ++ (s ++ (("```").data ++ ws2))))
      = pyStrip (("```sql").data ++ (s ++ ("```").data)) := by
    rw [hassoc]
    exact pyStrip_append_ws ws1 _ ws2 hws1 hws2
  have hstrip2 : pyStrip (("```sql").data ++ (s ++ ("```").data))
      = ("```sql").data ++ (s ++ ("```").data) := by
    refine pyStrip_eq_self _ rfl ?_
    rw [List.reverse_append, List.reverse_append]
    rfl
  have hdrop : (("```sql").data ++ (s ++ ("```").data)).drop 6 = s ++ ("```").data := rfl
  have hends : endsWithB (s ++ ("```").data) ("```").data = true := by
    simp only [endsWithB, List.reverse_append]
    exact isPrefixB_append_self _ _
  have htake : (s ++ ("```").data).take ((s ++ ("```").data).length - 3) = s := by
    have hlen : (s ++ ("```").data).length = s.length + 3 := by
      simp [List.length_append]
    rw [hlen, Nat.add_sub_cancel]
    exact take_append_self s ("```").data
  simp only [startsWithB] at hpre
  simp only [sanitize_sql, hstrip1, hstrip2, startsWithB,
    isPrefixB_append_self ("```sql").data (s ++ ("```").data), if_true, hdrop, hends, htake,
    hpre, hsuf, Bool.false_eq_true, if_false, pyStrip_idem]

/-- Witness for C4 (amended): a concrete fenced SELECT statement with
surrounding whitespace sanitizes exactly like the inner statement. -/
theorem c4_amended_witness :
    (("\n ").data.all isPySpace = true ∧ ("  ").data.all isPySpace = true) ∧
    sanitize_sql (("\n ").data ++ (("```sql").data ++
        (("\nselect region from sales\n").data ++ (("```").data ++ ("  ").data)))) =
      sanitize_sql ("\nselect region from sales\n").data := by
  refine ⟨⟨by decide, by decide⟩, ?_⟩
  exact c4_amended_theorem ("\nselect region from sales\n").data ("\n ").data ("  ").data
    (by decide) (by decide) (by decide) (by decide)

/-! ### C3 -/

/-- The backtick character, extracted from a string literal. -/
def btick : Char := ("`").data.headD ' '

theorem validate_ok_facts (c : List Char) (hstr : pyStrip c = c)
    (h : validate_sql c = .ok ()) :
    c.isEmpty = false ∧ startsSelect c = true ∧ hasForbidden c = false := by
  simp only [validate_sql, hstr, Bool.or_self] at h
  by_cases h1 : c.isEmpty = true
  · rw [if_pos h1] at h
    exact absurd h (by simp)
  · rw [if_neg h1] at h
    by_cases h2 : (!startsSelect c) = true
    · rw [if_pos h2] at h
      exact absurd h (by simp)
    · rw [if_neg h2] at h
      by_cases h3 : hasForbidden c = true
      · rw [if_pos h3] at h
        exact absurd h (by simp)
      · refine ⟨by simpa using h1, by simpa using h2, by simpa using h3⟩

theorem match_sanitize_shape (x o : List Char)
    (h : (match validate_sql x with
          | .error e => (Except.error ("SQL validation failed: " ++ e) : Except String (List Char))
          | .ok _ => Except.ok (add_limit_if_needed x)) = .ok o) :
    validate_sql x = .ok () ∧ o = add_limit_if_needed x := by
  cases hv : validate_sql x with
  | error e =>
    rw [hv] at h
    exact absurd h (by simp)
  | ok u =>
    cases u
    rw [hv] at h
    simp only [Except.ok.injEq] at h
    exact ⟨rfl, h.symm⟩

theorem sanitize_sql_ok_shape (s o : List Char) (h : sanitize_sql s = .ok o) :
    ∃ c, pyStrip c = c ∧ validate_sql c = .ok () ∧ o = add_limit_if_needed c := by
  simp only [sanitize_sql] at h
  have hx := match_sanitize_shape _ _ h
  exact ⟨_, pyStrip_idem _, hx.1, hx.2⟩

theorem startsSelect_fence_false (l : List Char)
    (h : startsWithB l ("```sql").data = true) : startsSelect l = false := by
  cases l with
  | nil => exact absurd h (by decide)
  | cons a t =>
    have hfence : ("```sql").data = btick :: ("``sql").data := by decide
    rw [startsWithB, hfence] at h
    have ha : btick = a := by
      simp only [isPrefixB, Bool.and_eq_true, decide_eq_true_eq] at h
      exact h.1
    rw [← ha]
    simp [startsSelect, List.dropWhile_cons, matchCharsCI, btick, isPySpace, lcChar]

theorem startsSelect_append_eq (suf y : List Char)
    (hin : inert suf ("select").data = true) (hb : boundaryAfter suf = true)
    (hy : y.dropWhile isPySpace = y) (hne : y ≠ []) :
    startsSelect (y ++ suf) = startsSelect y := by
  have hdw : (y ++ suf).dropWhile isPySpace = y ++ suf := by
    cases hy2 : y with
    | nil => exact absurd hy2 hne
    | cons a t =>
      have ha : isPySpace a = false := by
        by_cases hsp : isPySpace a = true
        · rw [hy2, List.dropWhile_cons, if_pos hsp] at hy
          have hlen := congrArg List.length hy
          have hle := (List.dropWhile_suffix (l := t) isPySpace).length_le
          simp at hlen
          omega
        · simpa using hsp
      rw [List.cons_append, List.dropWhile_cons, ha]
      simp
  simp only [startsSelect, hdw, hy]
  rw [matchCharsCI_append suf y ("select").data hin]
  cases hm : matchCharsCI ("select").data y with
  | none => rfl
  | some r =>
    cases r with
    | nil => simpa [boundaryAfter] using hb
    | cons x xs => rfl

theorem getLast?_semi_decomp (c : List Char) (h : c.getLast? = some ';') :
    c = c.dropLast ++ [';'] := by
  cases hr : c.reverse with
  | nil =>
    have : c = [] := by simpa using congrArg List.reverse hr
    rw [this] at h
    simp at h
  | cons b u =>
    have hc : c = u.reverse ++ [b] := by
      have := congrArg List.reverse hr
      simpa using this
    have hb : b = ';' := by
      rw [hc, List.getLast?_concat] at h
      simpa using h
    rw [hb] at hc
    rw [hc, List.dropLast_concat]

/-- Common final step: a stripped, accepted, fence-free statement on which
`add_limit_if_needed` is the identity is a fixed point of `sanitize_sql`. -/
theorem sanitize_fixed (c : List Char) (hstr : pyStrip c = c)
    (hval : validate_sql c = .ok ()) (hsel : startsSelect c = true)
    (hnf : endsWithB c ("```").data = false)
    (hal : add_limit_if_needed c = c) :
    sanitize_sql c = .ok c := by
  have hfp : startsWithB c ("```sql").data = false := by
    by_cases h : startsWithB c ("```sql").data = true
    · rw [startsSelect_fence_false c h] at hsel
      exact absurd hsel (by simp)
    · simpa using h
  simp only [sanitize_sql, hstr, hfp, Bool.false_eq_true, if_false, hnf, hval, hal]

/-- C3 (counterexample): `sanitize_sql` is not idempotent.  On the input
`"select 1 group by 1 ``````"` (six trailing backticks) it succeeds with an
output that still ends in a fence marker; a second application strips that
marker and returns a different string. -/
theorem c3_counterexample :
    sanitize_sql ("select 1 group by 1 ``````").data
        = .ok ("select 1 group by 1 ```").data ∧
    sanitize_sql ("select 1 group by 1 ```").data
        = .ok ("select 1 group by 1").data ∧
    ("select 1 group by 1 ```").data ≠ ("select 1 group by 1").data := by
  exact ⟨rfl, rfl, by decide⟩

/-- C3 (amended): `sanitize_sql` is idempotent on every input whose output
does not end in the code-fence marker ````` ``` ````` — re-applying it to
such an output succeeds and returns the output unchanged; in particular the
LIMIT-appending step detects its own previously-appended `LIMIT`, and every
output ending in `LIMIT 5000;` is a fixed point.  (Only outputs that end in
a fence marker, as in the counterexample, are re-stripped on a second
application.) -/
theorem c3_amended_theorem (s o : List Char)
    (hs : sanitize_sql s = .ok o) (hnf : endsWithB o ("```").data = false) :
    sanitize_sql o = .ok o := by
  obtain ⟨c, hcstr, hval, ho⟩ := sanitize_sql_ok_shape s o hs
  obtain ⟨hcne, hsel, hforb⟩ := validate_ok_facts c hcstr hval
  simp only [add_limit_if_needed, hcstr] at ho
  by_cases hlim : searchPat limitPat c = true
  · rw [if_pos hlim] at ho
    rw [ho] at hnf ⊢
    refine sanitize_fixed c hcstr hval hsel hnf ?_
    simp only [add_limit_if_needed, hcstr, hlim, if_true]
  · rw [if_neg hlim] at ho
    by_cases hgb : searchPat groupByPat c = true
    · rw [if_pos hgb] at ho
      rw [ho] at hnf ⊢
      refine sanitize_fixed c hcstr hval hsel hnf ?_
      simp only [add_limit_if_needed, hcstr, hlim, Bool.false_eq_true, if_false, hgb, if_true]
    · rw [if_neg hgb] at ho
      -- o = core ++ limitSuffix, where core is c without a terminating semicolon
      -- Reduce both semicolon cases to a single lemma about core.
      have main : ∀ y : List Char, startsSelect y = true → hasForbidden y = false →
          (∀ a u, y = a :: u → isPySpace a = false) →
          sanitize_sql (y ++ limitSuffix) = .ok (y ++ limitSuffix) := by
        intro y hysel hyforb hyhead
        cases hy2 : y with
        | nil =>
          rw [hy2] at hysel
          exact absurd hysel (by decide)
        | cons a t =>
          have ha : isPySpace a = false := hyhead a t hy2
          subst hy2
          have hostr : pyStrip ((a :: t) ++ limitSuffix) = (a :: t) ++ limitSuffix := by
            refine pyStrip_eq_self _ ?_ ?_
            · simpa [headIsB] using ha
            · rw [List.reverse_append]
              rfl
          have hosel : startsSelect ((a :: t) ++ limitSuffix) = true := by
            rw [startsSelect_append_eq limitSuffix (a :: t) (by decide) (by decide)
              (by rw [List.dropWhile_cons, ha]; simp) (List.cons_ne_nil a t)]
            exact hysel
          have hoforb : hasForbidden ((a :: t) ++ limitSuffix) = false := by
            rw [hasForbidden_append limitSuffix (by decide) (by decide)]
            exact hyforb
          have hoval : validate_sql ((a :: t) ++ limitSuffix) = .ok () := by
            simp only [validate_sql, hostr, Bool.or_self, hosel, hoforb]
            simp
          have hnfo : endsWithB ((a :: t) ++ limitSuffix) ("```").data = false := by
            simp only [endsWithB, List.reverse_append]
            rfl
          have halo : add_limit_if_needed ((a :: t) ++ limitSuffix) = (a :: t) ++ limitSuffix := by
            simp only [add_limit_if_needed, hostr]
            rw [if_pos (show searchPat limitPat ((a :: t) ++ limitSuffix) = true from
              searchPat_limit_found (a :: t) false)]
          exact sanitize_fixed _ hostr hoval hosel hnfo halo
      by_cases hsemi : c.getLast? = some ';'
      · rw [if_pos hsemi] at ho
        have hdecomp := getLast?_semi_decomp c hsemi
        have hdne : c.dropLast ≠ [] := by
          intro hnil
          rw [hnil] at hdecomp
          rw [hdecomp] at hsel
          exact absurd hsel (by decide)
        have hdhead : ∀ a u, c.dropLast = a :: u → isPySpace a = false := by
          intro a u hau
          refine pyStrip_head_not_space c a (u ++ [';']) ?_
          rw [hcstr]
          rw [hdecomp, hau]
          rfl
        have hdstrip : c.dropLast.dropWhile isPySpace = c.dropLast := by
          cases hd2 : c.dropLast with
          | nil => rfl
          | cons a u =>
            rw [List.dropWhile_cons, hdhead a u hd2]
            simp
        have hdsel : startsSelect c.dropLast = true := by
          rw [← startsSelect_append_eq [';'] c.dropLast (by decide) (by decide) hdstrip hdne]
          rw [← hdecomp]
          exact hsel
        have hdforb : hasForbidden c.dropLast = false := by
          rw [← hasForbidden_append [';'] (by decide) (by decide) c.dropLast]
          rw [← hdecomp]
          exact hforb
        rw [ho]
        exact main c.dropLast hdsel hdforb hdhead
      · rw [if_neg hsemi] at ho
        have hchead : ∀ a u, c = a :: u → isPySpace a = false := by
          intro a u hau
          refine pyStrip_head_not_space c a u ?_
          rw [hcstr]
          exact hau
        rw [ho]
        exact main c hsel hforb hchead

/-- Witness for C3 (amended): a concrete run — the Guard appends
`LIMIT 5000;` and a second application is a no-op. -/
theorem c3_amended_witness :
    sanitize_sql ("select * from sales").data
        = .ok ("select * from sales LIMIT 5000;").data ∧
    endsWithB ("select * from sales LIMIT 5000;").data ("```").data = false ∧
    sanitize_sql ("select * from sales LIMIT 5000;").data
        = .ok ("select * from sales LIMIT 5000;").data := by
  refine ⟨rfl, by decide, ?_⟩
  exact c3_amended_theorem ("select * from sales").data
    ("select * from sales LIMIT 5000;").data rfl (by decide)

end Guard
